import Mathlib

/-!
Shallow embedding of the smithay text-input / input-method-popup core:
`src/wayland/text_input/text_input_handle.rs` and
`src/wayland/input_method/input_method_popup_surface.rs`.

Protocol objects are identified by an object id that records the owning
client, mirroring `ObjectId::same_client_as`.  Machine integers are
modelled as `Nat` (for `u32`) and `Int` (for `i32`) with explicit
reduction modulo `2 ^ 32` where the source performs wrapping arithmetic.
Liveness of wayland objects is external state; it is passed into the
operations that query it as a predicate on object ids.  Event and relay
sends are modelled as emitted lists, in program order.
-/

/-- Wayland object id: owning client plus per-client object number;
mirrors `ObjectId` with `same_client_as`. -/
structure ObjId where
  client : Nat
  obj : Nat
deriving DecidableEq

/-- Mirrors `ObjectId::same_client_as`. -/
def ObjId.same_client_as (a b : ObjId) : Bool :=
  a.client == b.client

/-- A `wl_surface` protocol handle, reduced to its object id. -/
structure WlSurface where
  id : ObjId
deriving DecidableEq

/-- A `zwp_text_input_v3` protocol handle, reduced to its object id
(Rust equality of the handles is equality of the ids). -/
structure ZwpTextInputV3 where
  id : ObjId
deriving DecidableEq

/-- The modulus of `u32` arithmetic. -/
def U32_MOD : Nat := 4294967296

/-- One `Instance` entry of the registry (field `instance` of the Rust
struct is named `instanceObj` here because `instance` is reserved). -/
structure Instance where
  instanceObj : ZwpTextInputV3
  serial : Nat
  ready : Bool
deriving DecidableEq

/-- The `TextInput` session registry state: instance list plus optional
focus surface. -/
structure TextInput where
  instances : List Instance
  focus : Option WlSurface
deriving DecidableEq

/-- Events the registry sends to text-input client objects. -/
inductive TIEvent where
  | enter (target : ObjId) (surface : ObjId)
  | leave (target : ObjId) (surface : ObjId)
  | done (target : ObjId) (serial : Nat)
deriving DecidableEq

/-- The client object an event is addressed to. -/
def tiEventTarget : TIEvent → ObjId
  | .enter t _ => t
  | .leave t _ => t
  | .done t _ => t

/-- `TextInput::with_focused_text_input`: if a focus surface is set and
alive, runs `f` on every instance owned by the same client as the focus
surface, passing the instance handle, surface, serial, and mutable
`ready` flag.  `f` returns the new `ready` value together with emitted
outputs; liveness of the focus surface is the external `aliveOf`. -/
def TextInput.with_focused_text_input {ε : Type}
    (aliveOf : ObjId → Bool)
    (f : ZwpTextInputV3 → WlSurface → Nat → Bool → Bool × List ε)
    (s : TextInput) : TextInput × List ε :=
  match s.focus with
  | none => (s, [])
  | some surface =>
      if aliveOf surface.id then
        let results := s.instances.map fun ti =>
          if ti.instanceObj.id.same_client_as surface.id then
            let fr := f ti.instanceObj surface ti.serial ti.ready
            ({ ti with ready := fr.1 }, fr.2)
          else (ti, [])
        ({ s with instances := results.map Prod.fst },
         (results.map Prod.snd).flatten)
      else (s, [])

namespace TextInputHandle

/-- `TextInputHandle::add_instance`: appends a fresh entry with serial 0,
not ready. -/
def add_instance (i : ZwpTextInputV3) (s : TextInput) : TextInput :=
  { s with instances :=
      s.instances ++ [{ instanceObj := i, serial := 0, ready := false }] }

/-- `TextInputHandle::increment_serial`: for every entry whose handle
equals `text_input`, sets `ready` and bumps the `u32` serial (wrapping
modulo `2 ^ 32`). -/
def increment_serial (text_input : ZwpTextInputV3) (s : TextInput) : TextInput :=
  { s with instances := s.instances.map fun ti =>
      if ti.instanceObj = text_input then
        { ti with ready := true, serial := (ti.serial + 1) % U32_MOD }
      else ti }

/-- `TextInputHandle::focus`: reads the focus surface. -/
def focus (s : TextInput) : Option WlSurface :=
  s.focus

/-- `TextInputHandle::leave`: sends a leave event to every instance of
the same client as `surface`; mutates nothing. -/
def leave (surface : WlSurface) (s : TextInput) : TextInput × List TIEvent :=
  (s, s.instances.filterMap fun ti =>
      if ti.instanceObj.id.same_client_as surface.id then
        some (TIEvent.leave ti.instanceObj.id surface.id)
      else none)

/-- `TextInputHandle::enter`: sets the focus to `surface` and sends an
enter event to every instance of the same client as `surface`. -/
def enter (surface : WlSurface) (s : TextInput) : TextInput × List TIEvent :=
  ({ s with focus := some surface },
   s.instances.filterMap fun ti =>
      if ti.instanceObj.id.same_client_as surface.id then
        some (TIEvent.enter ti.instanceObj.id surface.id)
      else none)

/-- `TextInputHandle::done`: on the focused (alive) surface, for every
same-client instance that is ready, clears `ready` and sends a done
event carrying its current serial. -/
def done (aliveOf : ObjId → Bool) (s : TextInput) : TextInput × List TIEvent :=
  TextInput.with_focused_text_input aliveOf
    (fun ti _ serial ready =>
      if ready then (false, [TIEvent.done ti.id serial]) else (ready, []))
    s

/-- Public `TextInputHandle::with_focused_text_input`: runs a callback on
the focused instances; modelled by recording the `(instance, surface)`
pairs the callback is invoked with.  The callback does not touch
`ready`. -/
def with_focused_calls (aliveOf : ObjId → Bool) (s : TextInput) :
    TextInput × List (ObjId × ObjId) :=
  TextInput.with_focused_text_input aliveOf
    (fun ti surface _ ready => (ready, [(ti.id, surface.id)])) s

/-- `TextInputHandle::focused_text_input_serial`: runs a callback on the
focused instance serials; modelled by recording the serials the callback
is invoked with. -/
def focused_text_input_serial (aliveOf : ObjId → Bool) (s : TextInput) :
    TextInput × List Nat :=
  TextInput.with_focused_text_input aliveOf
    (fun _ _ serial ready => (ready, [serial])) s

end TextInputHandle

/-!
The Input Method Relay (`InputMethodHandle`) is the sibling subsystem;
only its call surface appears here.  Calls forwarded through
`with_instance` are modelled as delivered relay calls, per the
external-interface contract of the spec.
-/

/-- Modelled from the spec: the call surface of the Input Method Relay
(`InputMethodHandle`), whose implementation is outside this core.  Each
constructor is one relay operation invocation with its arguments. -/
inductive RelayCall where
  | surroundingText (text : String) (cursor anchor : Nat)
  | textChangeCause (cause : Nat)
  | contentType (hint purpose : Nat)
  | setTextInputRectangle (x y width height : Int)
  | done
  | deactivate
deriving DecidableEq

/-- Reinterpretation of an `i32` value as `u32` (the `as u32` casts on
`cursor` and `anchor`). -/
def i32AsU32 (v : Int) : Nat :=
  (v % (2 ^ 32 : Int)).toNat

/-- Modelled from the spec: `WEnum::<ChangeCause>::into_result` of the
generated protocol bindings (not under `src/`); the recognized
enumerants of `zwp_text_input_v3::ChangeCause` are `input_method = 0`
and `other = 1`. -/
def changeCauseIntoResult (v : Nat) : Option Nat :=
  if v ≤ 1 then some v else none

/-- Modelled from the spec: `WEnum::<ContentHint>::into_result`; the
hint is a bitmask over bits 0 to 9, so a value is recognized iff it is
below `0x400`. -/
def contentHintIntoResult (v : Nat) : Option Nat :=
  if v < 1024 then some v else none

/-- Modelled from the spec: `WEnum::<ContentPurpose>::into_result`; the
recognized enumerants of `zwp_text_input_v3::ContentPurpose` are
`normal = 0` through `terminal = 13`. -/
def contentPurposeIntoResult (v : Nat) : Option Nat :=
  if v ≤ 13 then some v else none

/-- The `zwp_text_input_v3` requests, with raw wire values (`u32` for
enumerants, `i32` for coordinates). -/
inductive Request where
  | Enable
  | Disable
  | SetSurroundingText (text : String) (cursor anchor : Int)
  | SetTextChangeCause (cause : Nat)
  | SetContentType (hint purpose : Nat)
  | SetCursorRectangle (x y width height : Int)
  | Commit
  | Destroy
deriving DecidableEq

/-- `Dispatch::request` for `ZwpTextInputV3`: handles one request
against the registry state, returning the new state and the relay calls
made, or `none` when handling aborts (the `unwrap` on an unrecognized
enumerant). -/
def handleRequest (resource : ZwpTextInputV3) (req : Request) (s : TextInput) :
    Option (TextInput × List RelayCall) :=
  match req with
  | .Enable => some (s, [])
  | .Disable => some (s, [])
  | .SetSurroundingText text cursor anchor =>
      some (s, [RelayCall.surroundingText text (i32AsU32 cursor) (i32AsU32 anchor)])
  | .SetTextChangeCause cause =>
      match changeCauseIntoResult cause with
      | none => none
      | some c => some (s, [RelayCall.textChangeCause c])
  | .SetContentType hint purpose =>
      match contentHintIntoResult hint with
      | none => none
      | some h =>
          match contentPurposeIntoResult purpose with
          | none => none
          | some p => some (s, [RelayCall.contentType h p])
  | .SetCursorRectangle x y width height =>
      some (s, [RelayCall.setTextInputRectangle x y width height])
  | .Commit =>
      some (TextInputHandle.increment_serial resource s, [RelayCall.done])
  | .Destroy => some (s, [])

/-- One step of the destruction hook, in program order: a relay call, or
the removal of the instance entry from the registry. -/
inductive DestroyAction where
  | relay (c : RelayCall)
  | removeInstanceFromRegistry (id : ObjId)
deriving DecidableEq

/-- `Dispatch::destroyed` for `ZwpTextInputV3`: forwards `deactivate`
then `done` to the relay, then retains only the registry entries whose
object id differs from the destroyed one.  The action list records
program order. -/
def textInputDestroyed (ti : ObjId) (s : TextInput) : TextInput × List DestroyAction :=
  ({ s with instances := s.instances.filter fun i => !(i.instanceObj.id == ti) },
   [DestroyAction.relay RelayCall.deactivate,
    DestroyAction.relay RelayCall.done,
    DestroyAction.removeInstanceFromRegistry ti])

/-!
Popup surface (`input_method_popup_surface.rs`).  `Rectangle` and
`Point` come from `crate::utils`, which is outside `src/`; they are the
evident position-and-size records.
-/

/-- Modelled from the spec: `utils::Point` with `i32` coordinates. -/
structure Point32 where
  x : Int
  y : Int
deriving DecidableEq

/-- Modelled from the spec: `utils::Size` with `i32` extent. -/
structure Size32 where
  w : Int
  h : Int
deriving DecidableEq

/-- Modelled from the spec: `utils::Rectangle`, a location plus size. -/
structure Rectangle32 where
  loc : Point32
  size : Size32
deriving DecidableEq

/-- `Rectangle::from_loc_and_size`. -/
def Rectangle32.from_loc_and_size (x y w h : Int) : Rectangle32 :=
  { loc := { x := x, y := y }, size := { w := w, h := h } }

/-- A `zwp_input_popup_surface_v2` role handle, reduced to its id. -/
structure ZwpInputPopupSurfaceV2 where
  id : ObjId
deriving DecidableEq

/-- `PopupSurface`: popup role object, backing surface, parent surface,
cursor rectangle and parent location. -/
structure PopupSurface where
  surface_role : ZwpInputPopupSurfaceV2
  surface : WlSurface
  parent : WlSurface
  rectangle : Rectangle32
  parent_location : Rectangle32
deriving DecidableEq

/-- Events sent on the popup role object. -/
inductive PopupEvent where
  | textInputRectangle (role : ObjId) (x y width height : Int)
deriving DecidableEq

/-- Wrapping reduction of an integer into the `i32` range, the release
semantics of `i32` addition and subtraction. -/
def wrap32 (v : Int) : Int :=
  (v + 2147483648) % 4294967296 - 2147483648

/-- `PopupSurface::alive`: the backing surface is alive and the alive
tracker stored in the role user data is alive.  Surface liveness is the
external `surfaceAlive`; the tracker state is `trackerAlive`. -/
def PopupSurface.alive (p : PopupSurface) (surfaceAlive : ObjId → Bool)
    (trackerAlive : Bool) : Bool :=
  surfaceAlive p.surface.id && trackerAlive

/-- `PopupSurface::location`: `(rect.loc.x - rect.size.w,
rect.loc.y + rect.size.h)` in wrapping `i32` arithmetic. -/
def PopupSurface.location (p : PopupSurface) : Int × Int :=
  (wrap32 (p.rectangle.loc.x - p.rectangle.size.w),
   wrap32 (p.rectangle.loc.y + p.rectangle.size.h))

/-- `PopupSurface::set_rectangle`: stores the rectangle and sends one
`text_input_rectangle` event with the same four values. -/
def PopupSurface.set_rectangle (p : PopupSurface) (x y width height : Int) :
    PopupSurface × List PopupEvent :=
  ({ p with rectangle := Rectangle32.from_loc_and_size x y width height },
   [PopupEvent.textInputRectangle p.surface_role.id x y width height])

/-- `AliveTracker::destroy_notify`: marks the write-once liveness cell
dead. -/
def destroy_notify (_t : Bool) : Bool := false

/-- `Dispatch::destroyed` for `ZwpInputPopupSurfaceV2`: calls
`destroy_notify` on the alive tracker of the role user data. -/
def popupSurfaceDestroyed (trackerAlive : Bool) : Bool :=
  destroy_notify trackerAlive

/-!
Helper lemmas about `TextInput.with_focused_text_input`.
-/

/-- The per-instance state update performed by
`with_focused_text_input` under an alive focus. -/
def wftiUpd {ε : Type} (f : ZwpTextInputV3 → WlSurface → Nat → Bool → Bool × List ε)
    (surf : WlSurface) (ti : Instance) : Instance :=
  if ti.instanceObj.id.same_client_as surf.id then
    { ti with ready := (f ti.instanceObj surf ti.serial ti.ready).1 }
  else ti

/-- The per-instance output emitted by `with_focused_text_input` under
an alive focus. -/
def wftiOut {ε : Type} (f : ZwpTextInputV3 → WlSurface → Nat → Bool → Bool × List ε)
    (surf : WlSurface) (ti : Instance) : List ε :=
  if ti.instanceObj.id.same_client_as surf.id then
    (f ti.instanceObj surf ti.serial ti.ready).2
  else []

theorem wfti_focus_none {ε : Type} (aliveOf : ObjId → Bool)
    (f : ZwpTextInputV3 → WlSurface → Nat → Bool → Bool × List ε)
    (s : TextInput) (h : s.focus = none) :
    TextInput.with_focused_text_input aliveOf f s = (s, []) := by
  unfold TextInput.with_focused_text_input
  rw [h]

theorem wfti_focus_dead {ε : Type} (aliveOf : ObjId → Bool)
    (f : ZwpTextInputV3 → WlSurface → Nat → Bool → Bool × List ε)
    (s : TextInput) (surf : WlSurface) (h : s.focus = some surf)
    (hdead : aliveOf surf.id = false) :
    TextInput.with_focused_text_input aliveOf f s = (s, []) := by
  unfold TextInput.with_focused_text_input
  rw [h]
  simp [hdead]

theorem wfti_focus_alive {ε : Type} (aliveOf : ObjId → Bool)
    (f : ZwpTextInputV3 → WlSurface → Nat → Bool → Bool × List ε)
    (s : TextInput) (surf : WlSurface) (h : s.focus = some surf)
    (halive : aliveOf surf.id = true) :
    TextInput.with_focused_text_input aliveOf f s =
      ({ s with instances := s.instances.map (wftiUpd f surf) },
       (s.instances.map (wftiOut f surf)).flatten) := by
  unfold TextInput.with_focused_text_input
  rw [h]
  simp only [halive, if_true, List.map_map]
  simp only [Prod.mk.injEq, TextInput.mk.injEq]
  refine ⟨⟨?_, trivial⟩, ?_⟩
  · apply List.map_congr_left
    intro ti _
    by_cases hc : ti.instanceObj.id.same_client_as surf.id
    · simp [wftiUpd, hc]
    · simp [wftiUpd, hc]
  · congr 1
    apply List.map_congr_left
    intro ti _
    by_cases hc : ti.instanceObj.id.same_client_as surf.id
    · simp [wftiOut, hc]
    · simp [wftiOut, hc]

theorem flatten_map_if {α β : Type} (l : List α) (p : α → Bool) (g : α → β) :
    (l.map fun a => if p a then [g a] else []).flatten = (l.filter p).map g := by
  induction l with
  | nil => simp
  | cons a tl ih =>
      by_cases hp : p a
      · simp [hp, ih]
      · simp [hp, ih]

theorem done_focus_alive (aliveOf : ObjId → Bool) (s : TextInput) (surf : WlSurface)
    (h : s.focus = some surf) (halive : aliveOf surf.id = true) :
    TextInputHandle.done aliveOf s =
      ({ s with instances := s.instances.map fun ti =>
          if ti.instanceObj.id.same_client_as surf.id then { ti with ready := false }
          else ti },
       (s.instances.filter fun ti =>
          ti.instanceObj.id.same_client_as surf.id && ti.ready).map
         fun ti => TIEvent.done ti.instanceObj.id ti.serial) := by
  rw [TextInputHandle.done, wfti_focus_alive _ _ _ _ h halive]
  simp only [Prod.mk.injEq, TextInput.mk.injEq]
  refine ⟨⟨?_, trivial⟩, ?_⟩
  · apply List.map_congr_left
    intro ti _
    by_cases hc : ti.instanceObj.id.same_client_as surf.id
    · by_cases hr : ti.ready
      · simp [wftiUpd, hc, hr]
      · simp [wftiUpd, hc, hr]
    · simp [wftiUpd, hc]
  · have hev : s.instances.map
        (wftiOut (fun ti _ serial ready =>
          if ready then (false, [TIEvent.done ti.id serial]) else (ready, [])) surf) =
        s.instances.map fun ti =>
          if ti.instanceObj.id.same_client_as surf.id && ti.ready then
            [TIEvent.done ti.instanceObj.id ti.serial]
          else [] := by
      apply List.map_congr_left
      intro ti _
      by_cases hc : ti.instanceObj.id.same_client_as surf.id
      · by_cases hr : ti.ready
        · simp [wftiOut, hc, hr]
        · simp [wftiOut, hc, hr]
      · simp [wftiOut, hc]
    rw [hev, flatten_map_if]

theorem with_focused_calls_focus_alive (aliveOf : ObjId → Bool) (s : TextInput)
    (surf : WlSurface) (h : s.focus = some surf) (halive : aliveOf surf.id = true) :
    TextInputHandle.with_focused_calls aliveOf s =
      (s, (s.instances.filter fun ti => ti.instanceObj.id.same_client_as surf.id).map
        fun ti => (ti.instanceObj.id, surf.id)) := by
  rw [TextInputHandle.with_focused_calls, wfti_focus_alive _ _ _ _ h halive]
  simp only [Prod.mk.injEq]
  refine ⟨?_, ?_⟩
  · have hfn : wftiUpd (fun ti surface _ ready => (ready, [(ti.id, surface.id)])) surf = id := by
      funext ti
      by_cases hc : ti.instanceObj.id.same_client_as surf.id
      · simp [wftiUpd, hc]
      · simp [wftiUpd, hc]
    rw [hfn, List.map_id]
  · have hev : s.instances.map
        (wftiOut (fun ti surface _ ready => (ready, [(ti.id, surface.id)])) surf) =
        s.instances.map fun ti =>
          if ti.instanceObj.id.same_client_as surf.id then
            [(ti.instanceObj.id, surf.id)]
          else [] := by
      apply List.map_congr_left
      intro ti _
      by_cases hc : ti.instanceObj.id.same_client_as surf.id
      · simp [wftiOut, hc]
      · simp [wftiOut, hc]
    rw [hev, flatten_map_if]

theorem focused_serial_focus_alive (aliveOf : ObjId → Bool) (s : TextInput)
    (surf : WlSurface) (h : s.focus = some surf) (halive : aliveOf surf.id = true) :
    TextInputHandle.focused_text_input_serial aliveOf s =
      (s, (s.instances.filter fun ti => ti.instanceObj.id.same_client_as surf.id).map
        fun ti => ti.serial) := by
  rw [TextInputHandle.focused_text_input_serial, wfti_focus_alive _ _ _ _ h halive]
  simp only [Prod.mk.injEq]
  refine ⟨?_, ?_⟩
  · have hfn : wftiUpd (fun _ _ serial ready => (ready, [serial])) surf
        = (id : Instance → Instance) := by
      funext ti
      by_cases hc : ti.instanceObj.id.same_client_as surf.id
      · simp [wftiUpd, hc]
      · simp [wftiUpd, hc]
    rw [hfn, List.map_id]
  · have hev : s.instances.map
        (wftiOut (fun _ _ serial ready => (ready, [serial])) surf) =
        s.instances.map fun ti =>
          if ti.instanceObj.id.same_client_as surf.id then [ti.serial] else [] := by
      apply List.map_congr_left
      intro ti _
      by_cases hc : ti.instanceObj.id.same_client_as surf.id
      · simp [wftiOut, hc]
      · simp [wftiOut, hc]
    rw [hev, flatten_map_if]

/-- Iterated `Commit` handling restricted to its registry effect:
`n` successive `increment_serial` calls for the same text input. -/
def commitN (r : ZwpTextInputV3) : Nat → TextInput → TextInput
  | 0, s => s
  | n + 1, s => TextInputHandle.increment_serial r (commitN r n s)

/-- The association of instance handles to serials in a registry
state. -/
def serialsOf (s : TextInput) : List (ZwpTextInputV3 × Nat) :=
  s.instances.map fun ti => (ti.instanceObj, ti.serial)

/-- An initial one-instance registry after binding. -/
def freshRegistry (r : ZwpTextInputV3) : TextInput :=
  TextInputHandle.add_instance r { instances := [], focus := none }

theorem commitN_fresh (r : ZwpTextInputV3) (n : Nat) :
    (commitN r n (freshRegistry r)).instances
      = [{ instanceObj := r, serial := n % U32_MOD, ready := decide (0 < n) }] := by
  induction n with
  | zero =>
      simp [commitN, freshRegistry, TextInputHandle.add_instance, Nat.zero_mod]
  | succ n ih =>
      have h1 : (n % U32_MOD + 1) % U32_MOD = (n + 1) % U32_MOD := by
        conv_rhs => rw [Nat.add_mod]
        norm_num [U32_MOD]
      rw [commitN, TextInputHandle.increment_serial]
      simp [ih, h1]

theorem wrap32_eq_self (v : Int) (h1 : -2147483648 ≤ v) (h2 : v < 2147483648) :
    wrap32 v = v := by
  unfold wrap32
  rw [Int.emod_eq_of_lt (by omega) (by omega)]
  omega

theorem done_state_char (aliveOf : ObjId → Bool) (s : TextInput) :
    (TextInputHandle.done aliveOf s).1
      = { s with instances := s.instances.map fun ti =>
            match s.focus with
            | none => ti
            | some surf =>
                if aliveOf surf.id && ti.instanceObj.id.same_client_as surf.id
                    && ti.ready then
                  { ti with ready := false }
                else ti } := by
  obtain ⟨inst, foc⟩ := s
  cases foc with
  | none =>
      rw [TextInputHandle.done, wfti_focus_none _ _ _ rfl]
      simp
  | some surf =>
      by_cases halive : aliveOf surf.id
      · rw [done_focus_alive aliveOf _ surf rfl halive]
        simp only [TextInput.mk.injEq, and_true]
        apply List.map_congr_left
        intro ti _
        obtain ⟨o, sr, rd⟩ := ti
        by_cases hc : o.id.same_client_as surf.id
        · cases rd <;> simp [hc, halive]
        · simp [hc, halive]
      · have hdead : aliveOf surf.id = false := by simpa using halive
        rw [TextInputHandle.done, wfti_focus_dead _ _ _ _ rfl hdead]
        simp [hdead]

theorem serialsOf_done (aliveOf : ObjId → Bool) (s : TextInput) :
    serialsOf (TextInputHandle.done aliveOf s).1 = serialsOf s := by
  rw [serialsOf, done_state_char]
  simp only [List.map_map]
  apply List.map_congr_left
  intro ti _
  cases s.focus with
  | none => rfl
  | some surf =>
      dsimp only [Function.comp]
      split <;> simp [serialsOf]

theorem with_focused_calls_fst (aliveOf : ObjId → Bool) (s : TextInput) :
    (TextInputHandle.with_focused_calls aliveOf s).1 = s := by
  cases hfoc : s.focus with
  | none => rw [TextInputHandle.with_focused_calls, wfti_focus_none _ _ _ hfoc]
  | some surf =>
      by_cases halive : aliveOf surf.id
      · rw [with_focused_calls_focus_alive aliveOf s surf hfoc halive]
      · have hdead : aliveOf surf.id = false := by simpa using halive
        rw [TextInputHandle.with_focused_calls, wfti_focus_dead _ _ _ _ hfoc hdead]

theorem focused_serial_fst (aliveOf : ObjId → Bool) (s : TextInput) :
    (TextInputHandle.focused_text_input_serial aliveOf s).1 = s := by
  cases hfoc : s.focus with
  | none => rw [TextInputHandle.focused_text_input_serial, wfti_focus_none _ _ _ hfoc]
  | some surf =>
      by_cases halive : aliveOf surf.id
      · rw [focused_serial_focus_alive aliveOf s surf hfoc halive]
      · have hdead : aliveOf surf.id = false := by simpa using halive
        rw [TextInputHandle.focused_text_input_serial, wfti_focus_dead _ _ _ _ hfoc hdead]

theorem done_fst_focus (aliveOf : ObjId → Bool) (s : TextInput) :
    (TextInputHandle.done aliveOf s).1.focus = s.focus := by
  rw [done_state_char]

theorem done_done_snd_nil (aliveOf : ObjId → Bool) (s : TextInput) :
    (TextInputHandle.done aliveOf ((TextInputHandle.done aliveOf s).1)).2 = [] := by
  cases hfoc : (TextInputHandle.done aliveOf s).1.focus with
  | none =>
      rw [TextInputHandle.done, wfti_focus_none _ _ _ hfoc]
  | some surf =>
      by_cases halive : aliveOf surf.id
      · rw [done_focus_alive _ _ _ hfoc halive]
        suffices hnil : ((TextInputHandle.done aliveOf s).1.instances.filter
            fun ti => ti.instanceObj.id.same_client_as surf.id && ti.ready) = [] by
          simp [hnil]
        rw [List.filter_eq_nil_iff]
        intro ti hti
        have hs : s.focus = some surf := by rw [← done_fst_focus aliveOf s, hfoc]
        rw [done_state_char] at hti
        simp only [hs] at hti
        obtain ⟨ti0, _, rfl⟩ := List.mem_map.1 hti
        obtain ⟨o, sr, rd⟩ := ti0
        by_cases hc : o.id.same_client_as surf.id
        · cases rd <;> simp [hc, halive]
        · cases rd <;> simp [hc, halive]
      · have hdead : aliveOf surf.id = false := by simpa using halive
        rw [TextInputHandle.done, wfti_focus_dead _ _ _ _ hfoc hdead]

theorem map_serial_filter (l : List Instance) (tid : ObjId) :
    (l.filter fun i => !(i.instanceObj.id == tid)).map
        (fun ti => (ti.instanceObj, ti.serial))
      = (l.map fun ti => (ti.instanceObj, ti.serial)).filter
          fun p => !(p.1.id == tid) := by
  induction l with
  | nil => rfl
  | cons a tl ih =>
      by_cases ha : a.instanceObj.id == tid
      · simp [ha, ih]
      · simp [ha, ih]

/-- Claim C1 (amended): `add_instance` creates an instance with serial 0
and `ready = false`; starting from that state, the `n`-th `Commit`
leaves the serial at `n % 2^32`, so each `Commit` strictly increases the
serial by exactly 1 as long as the new serial stays below `2^32`
(at `2^32 - 1` the `u32` serial wraps to 0); and no other registry
operation (`done`, `enter`, `leave`, the focused-instance accessors,
instance removal) changes the serial of a retained instance. -/
theorem serial_monotonicity (i : ZwpTextInputV3) (s : TextInput)
    (aliveOf : ObjId → Bool) (surf : WlSurface) (tid : ObjId) (n : Nat) :
    (TextInputHandle.add_instance i s).instances
        = s.instances ++ [{ instanceObj := i, serial := 0, ready := false }]
    ∧ (commitN i n (freshRegistry i)).instances
        = [{ instanceObj := i, serial := n % U32_MOD, ready := decide (0 < n) }]
    ∧ (n + 1 < U32_MOD →
        (commitN i (n + 1) (freshRegistry i)).instances.map Instance.serial
          = (commitN i n (freshRegistry i)).instances.map fun ti => ti.serial + 1)
    ∧ serialsOf (TextInputHandle.done aliveOf s).1 = serialsOf s
    ∧ serialsOf (TextInputHandle.enter surf s).1 = serialsOf s
    ∧ (TextInputHandle.leave surf s).1 = s
    ∧ serialsOf (TextInputHandle.with_focused_calls aliveOf s).1 = serialsOf s
    ∧ serialsOf (TextInputHandle.focused_text_input_serial aliveOf s).1 = serialsOf s
    ∧ serialsOf (textInputDestroyed tid s).1
        = (serialsOf s).filter fun p => !(p.1.id == tid) := by
  refine ⟨rfl, commitN_fresh i n, ?_, serialsOf_done aliveOf s, rfl, rfl, ?_, ?_, ?_⟩
  · intro hlt
    rw [commitN_fresh, commitN_fresh]
    simp only [List.map_cons, List.map_nil, List.cons.injEq, and_true]
    have h2 : n % U32_MOD = n := Nat.mod_eq_of_lt (by omega)
    have h3 : (n + 1) % U32_MOD = n + 1 := Nat.mod_eq_of_lt hlt
    omega
  · rw [with_focused_calls_fst]
  · rw [focused_serial_fst]
  · rw [serialsOf, serialsOf, textInputDestroyed]
    exact map_serial_filter s.instances tid

/-- Witness for the amended C1 theorem at `n = 0`: the first `Commit` on
a fresh instance takes the serial from 0 to 1. -/
theorem serial_monotonicity_witness :
    (commitN ⟨⟨0, 0⟩⟩ 1 (freshRegistry ⟨⟨0, 0⟩⟩)).instances.map Instance.serial
      = (commitN ⟨⟨0, 0⟩⟩ 0 (freshRegistry ⟨⟨0, 0⟩⟩)).instances.map
          fun ti => ti.serial + 1 :=
  (serial_monotonicity ⟨⟨0, 0⟩⟩ { instances := [], focus := none }
      (fun _ => true) ⟨⟨0, 0⟩⟩ ⟨0, 0⟩ 0).2.2.1 (by decide)

/-- Counterexample to C1 as stated: after `2^32 - 1` commits the serial
of the fresh instance is `2^32 - 1`, and the next `Commit`
(`increment_serial`) takes it to 0, not to `2^32 - 1 + 1`. -/
theorem serial_wrap_counterexample :
    serialsOf (commitN ⟨⟨0, 0⟩⟩ (U32_MOD - 1) (freshRegistry ⟨⟨0, 0⟩⟩))
        = [(⟨⟨0, 0⟩⟩, U32_MOD - 1)]
    ∧ serialsOf (TextInputHandle.increment_serial ⟨⟨0, 0⟩⟩
          (commitN ⟨⟨0, 0⟩⟩ (U32_MOD - 1) (freshRegistry ⟨⟨0, 0⟩⟩)))
        = [(⟨⟨0, 0⟩⟩, 0)]
    ∧ (0 : Nat) ≠ (U32_MOD - 1) + 1 := by
  have hstep : TextInputHandle.increment_serial (⟨⟨0, 0⟩⟩ : ZwpTextInputV3)
        (commitN ⟨⟨0, 0⟩⟩ (U32_MOD - 1) (freshRegistry ⟨⟨0, 0⟩⟩))
      = commitN ⟨⟨0, 0⟩⟩ ((U32_MOD - 1) + 1) (freshRegistry ⟨⟨0, 0⟩⟩) := by
    conv_rhs => rw [commitN]
  refine ⟨?_, ?_, by decide⟩
  · rw [serialsOf, commitN_fresh]
    decide
  · rw [hstep, serialsOf, commitN_fresh]
    decide

/-- Claim C2 (amended): with an alive focused surface, `done()` sends a
done event to exactly the focused-client instances that are ready,
each carrying that instance's current serial, and clears their `ready`
flags; when no focused-client instance is ready it is a no-op; and a
second `done()` with no intervening commit sends no events at all, so at
most one done event is sent per instance. -/
theorem done_handshake (aliveOf : ObjId → Bool) (s : TextInput) (surf : WlSurface) :
    (s.focus = some surf → aliveOf surf.id = true →
      (TextInputHandle.done aliveOf s).2
        = (s.instances.filter fun ti =>
            ti.instanceObj.id.same_client_as surf.id && ti.ready).map
            fun ti => TIEvent.done ti.instanceObj.id ti.serial)
    ∧ (s.focus = some surf → aliveOf surf.id = true →
        ∀ ti ∈ (TextInputHandle.done aliveOf s).1.instances,
          ti.instanceObj.id.same_client_as surf.id = true → ti.ready = false)
    ∧ ((∀ ti ∈ s.instances, ti.instanceObj.id.same_client_as surf.id = true →
          ti.ready = false) → s.focus = some surf →
        TextInputHandle.done aliveOf s = (s, []))
    ∧ (TextInputHandle.done aliveOf ((TextInputHandle.done aliveOf s).1)).2 = [] := by
  refine ⟨?_, ?_, ?_, done_done_snd_nil aliveOf s⟩
  · intro h hal
    rw [done_focus_alive _ _ _ h hal]
  · intro h hal ti hti hc
    rw [done_state_char] at hti
    simp only [h] at hti
    obtain ⟨ti0, _, rfl⟩ := List.mem_map.1 hti
    obtain ⟨o, sr, rd⟩ := ti0
    by_cases hc0 : o.id.same_client_as surf.id
    · cases rd <;> simp [hal, hc0]
    · cases rd <;> simp [hal, hc0] at hc ⊢
  · intro hnr h
    by_cases hal : aliveOf surf.id
    · rw [done_focus_alive _ _ _ h hal]
      simp only [Prod.mk.injEq]
      constructor
      · have hmap : s.instances.map (fun ti =>
            if ti.instanceObj.id.same_client_as surf.id then { ti with ready := false }
            else ti) = s.instances := by
          conv_rhs => rw [← List.map_id s.instances]
          apply List.map_congr_left
          intro ti hti
          obtain ⟨o, sr, rd⟩ := ti
          by_cases hc0 : o.id.same_client_as surf.id
          · have := hnr _ hti (by simpa using hc0)
            simp at this
            simp [hc0, this]
          · simp [hc0]
        obtain ⟨inst, foc⟩ := s
        simp only at hmap
        simp [hmap]
      · have hfil : (s.instances.filter fun ti =>
            ti.instanceObj.id.same_client_as surf.id && ti.ready) = [] := by
          rw [List.filter_eq_nil_iff]
          intro ti hti
          obtain ⟨o, sr, rd⟩ := ti
          by_cases hc0 : o.id.same_client_as surf.id
          · have := hnr _ hti (by simpa using hc0)
            simp at this
            simp [hc0, this]
          · simp [hc0]
        rw [hfil]
        rfl
    · rw [TextInputHandle.done, wfti_focus_dead _ _ _ _ h (by simpa using hal)]

/-- Witness for the amended C2 theorem: one ready focused-client
instance with serial 3 receives exactly `done 3`. -/
theorem done_handshake_witness :
    (TextInputHandle.done (fun _ => true)
      { instances := [{ instanceObj := ⟨⟨0, 1⟩⟩, serial := 3, ready := true }],
        focus := some ⟨⟨0, 0⟩⟩ }).2 = [TIEvent.done ⟨0, 1⟩ 3] := by
  have h := (done_handshake (fun _ => true)
      { instances := [{ instanceObj := ⟨⟨0, 1⟩⟩, serial := 3, ready := true }],
        focus := some ⟨⟨0, 0⟩⟩ } ⟨⟨0, 0⟩⟩).1 rfl rfl
  rw [h]
  decide

/-- Counterexample to C2 as stated: with two ready instances of the
focused client, calling `done()` twice with no intervening commit sends
two events in total (both in the first call), not at most one. -/
theorem done_twice_total_counterexample :
    ((TextInputHandle.done (fun _ => true)
        { instances := [{ instanceObj := ⟨⟨0, 1⟩⟩, serial := 1, ready := true },
                        { instanceObj := ⟨⟨0, 2⟩⟩, serial := 1, ready := true }],
          focus := some ⟨⟨0, 0⟩⟩ }).2).length
      + ((TextInputHandle.done (fun _ => true)
          ((TextInputHandle.done (fun _ => true)
            { instances := [{ instanceObj := ⟨⟨0, 1⟩⟩, serial := 1, ready := true },
                            { instanceObj := ⟨⟨0, 2⟩⟩, serial := 1, ready := true }],
              focus := some ⟨⟨0, 0⟩⟩ }).1)).2).length = 2
    ∧ ¬(2 ≤ 1) := by decide

/-- Claim C3: destroying a text-input object produces, in program
order, a relay `deactivate`, then a relay `done`, then the removal of
the entry from the registry; afterwards no entry with that object id
remains, every surviving entry was already present, every other entry
survives, and the focus is untouched. -/
theorem destroy_ordering (tid : ObjId) (s : TextInput) :
    (textInputDestroyed tid s).2
      = [DestroyAction.relay RelayCall.deactivate,
         DestroyAction.relay RelayCall.done,
         DestroyAction.removeInstanceFromRegistry tid]
    ∧ (∀ i ∈ (textInputDestroyed tid s).1.instances, i.instanceObj.id ≠ tid)
    ∧ (∀ i ∈ (textInputDestroyed tid s).1.instances, i ∈ s.instances)
    ∧ (∀ i ∈ s.instances, i.instanceObj.id ≠ tid →
        i ∈ (textInputDestroyed tid s).1.instances)
    ∧ (textInputDestroyed tid s).1.focus = s.focus := by
  refine ⟨rfl, ?_, ?_, ?_, rfl⟩
  · intro i hi
    simp only [textInputDestroyed, List.mem_filter] at hi
    simpa using hi.2
  · intro i hi
    simp only [textInputDestroyed, List.mem_filter] at hi
    exact hi.1
  · intro i hi hne
    simp only [textInputDestroyed, List.mem_filter]
    exact ⟨hi, by simpa using hne⟩

/-- Witness for the C3 theorem: destroying id `(0,1)` in a two-instance
registry yields the three ordered actions and keeps the `(0,2)`
instance. -/
theorem destroy_ordering_witness :
    (textInputDestroyed ⟨0, 1⟩
        { instances := [{ instanceObj := ⟨⟨0, 1⟩⟩, serial := 4, ready := true },
                        { instanceObj := ⟨⟨0, 2⟩⟩, serial := 5, ready := false }],
          focus := none }).2
      = [DestroyAction.relay RelayCall.deactivate,
         DestroyAction.relay RelayCall.done,
         DestroyAction.removeInstanceFromRegistry ⟨0, 1⟩]
    ∧ ({ instanceObj := ⟨⟨0, 2⟩⟩, serial := 5, ready := false } : Instance)
        ∈ (textInputDestroyed ⟨0, 1⟩
            { instances := [{ instanceObj := ⟨⟨0, 1⟩⟩, serial := 4, ready := true },
                            { instanceObj := ⟨⟨0, 2⟩⟩, serial := 5, ready := false }],
              focus := none }).1.instances :=
  ⟨(destroy_ordering ⟨0, 1⟩ _).1,
   (destroy_ordering ⟨0, 1⟩
      { instances := [{ instanceObj := ⟨⟨0, 1⟩⟩, serial := 4, ready := true },
                      { instanceObj := ⟨⟨0, 2⟩⟩, serial := 5, ready := false }],
        focus := none }).2.2.2.1
      { instanceObj := ⟨⟨0, 2⟩⟩, serial := 5, ready := false }
      (by decide) (by decide)⟩

/-- Claim C4: `enter(S)` sets the focus to `S` and sends enter events
exactly to the instances of the client of `S`; `leave(S)` sends leave
events exactly to those instances and changes nothing; and `done()`
events only ever target instances of the same client as the focus
surface. -/
theorem focus_exclusivity (s : TextInput) (surf : WlSurface) (aliveOf : ObjId → Bool) :
    (TextInputHandle.enter surf s).1 = { s with focus := some surf }
    ∧ (TextInputHandle.leave surf s).1 = s
    ∧ (∀ e ∈ (TextInputHandle.enter surf s).2,
        (tiEventTarget e).same_client_as surf.id = true)
    ∧ (∀ e ∈ (TextInputHandle.leave surf s).2,
        (tiEventTarget e).same_client_as surf.id = true)
    ∧ (∀ ti ∈ s.instances, ti.instanceObj.id.same_client_as surf.id = true →
        TIEvent.enter ti.instanceObj.id surf.id ∈ (TextInputHandle.enter surf s).2
        ∧ TIEvent.leave ti.instanceObj.id surf.id ∈ (TextInputHandle.leave surf s).2)
    ∧ (s.focus = some surf →
        ∀ e ∈ (TextInputHandle.done aliveOf s).2,
          (tiEventTarget e).same_client_as surf.id = true) := by
  refine ⟨rfl, rfl, ?_, ?_, ?_, ?_⟩
  · intro e he
    simp only [TextInputHandle.enter, List.mem_filterMap] at he
    obtain ⟨ti, _, hti⟩ := he
    by_cases hc : ti.instanceObj.id.same_client_as surf.id
    · rw [if_pos hc] at hti
      cases hti
      simpa [tiEventTarget] using hc
    · rw [if_neg hc] at hti
      cases hti
  · intro e he
    simp only [TextInputHandle.leave, List.mem_filterMap] at he
    obtain ⟨ti, _, hti⟩ := he
    by_cases hc : ti.instanceObj.id.same_client_as surf.id
    · rw [if_pos hc] at hti
      cases hti
      simpa [tiEventTarget] using hc
    · rw [if_neg hc] at hti
      cases hti
  · intro ti hti hc
    constructor
    · simp only [TextInputHandle.enter, List.mem_filterMap]
      exact ⟨ti, hti, by rw [if_pos hc]⟩
    · simp only [TextInputHandle.leave, List.mem_filterMap]
      exact ⟨ti, hti, by rw [if_pos hc]⟩
  · intro hfoc e he
    by_cases hal : aliveOf surf.id
    · rw [done_focus_alive _ _ _ hfoc hal] at he
      obtain ⟨ti, htif, rfl⟩ := List.mem_map.1 he
      rw [List.mem_filter] at htif
      have h2 := htif.2
      rw [Bool.and_eq_true] at h2
      simpa [tiEventTarget] using h2.1
    · rw [TextInputHandle.done, wfti_focus_dead _ _ _ _ hfoc (by simpa using hal)] at he
      simp at he

/-- Witness for the C4 theorem: after `enter` of a client-0 surface, the
client-0 instance receives an enter event. -/
theorem focus_exclusivity_witness :
    TIEvent.enter ⟨0, 1⟩ ⟨0, 0⟩ ∈ (TextInputHandle.enter ⟨⟨0, 0⟩⟩
      { instances := [{ instanceObj := ⟨⟨0, 1⟩⟩, serial := 0, ready := false },
                      { instanceObj := ⟨⟨1, 7⟩⟩, serial := 0, ready := false }],
        focus := none }).2 :=
  ((focus_exclusivity
      { instances := [{ instanceObj := ⟨⟨0, 1⟩⟩, serial := 0, ready := false },
                      { instanceObj := ⟨⟨1, 7⟩⟩, serial := 0, ready := false }],
        focus := none } ⟨⟨0, 0⟩⟩ (fun _ => true)).2.2.2.2.1
    { instanceObj := ⟨⟨0, 1⟩⟩, serial := 0, ready := false }
    (by decide) (by decide)).1

/-- Claim C5: when no focus surface is stored, or the stored one is not
alive, `done`, `with_focused_text_input` and `focused_text_input_serial`
leave the state unchanged, send nothing and run no callback. -/
theorem dead_focus_safety (aliveOf : ObjId → Bool) (s : TextInput)
    (hdead : ∀ surf, s.focus = some surf → aliveOf surf.id = false) :
    TextInputHandle.done aliveOf s = (s, [])
    ∧ TextInputHandle.with_focused_calls aliveOf s = (s, [])
    ∧ TextInputHandle.focused_text_input_serial aliveOf s = (s, []) := by
  cases hfoc : s.focus with
  | none =>
      exact ⟨by rw [TextInputHandle.done, wfti_focus_none _ _ _ hfoc],
             by rw [TextInputHandle.with_focused_calls, wfti_focus_none _ _ _ hfoc],
             by rw [TextInputHandle.focused_text_input_serial,
                    wfti_focus_none _ _ _ hfoc]⟩
  | some surf =>
      have hd := hdead surf hfoc
      exact ⟨by rw [TextInputHandle.done, wfti_focus_dead _ _ _ _ hfoc hd],
             by rw [TextInputHandle.with_focused_calls, wfti_focus_dead _ _ _ _ hfoc hd],
             by rw [TextInputHandle.focused_text_input_serial,
                    wfti_focus_dead _ _ _ _ hfoc hd]⟩

/-- Witness for the C5 theorem: a dead focused surface makes `done()`
a no-op even with a ready instance present. -/
theorem dead_focus_safety_witness :
    TextInputHandle.done (fun _ => false)
        { instances := [{ instanceObj := ⟨⟨0, 1⟩⟩, serial := 2, ready := true }],
          focus := some ⟨⟨0, 0⟩⟩ }
      = ({ instances := [{ instanceObj := ⟨⟨0, 1⟩⟩, serial := 2, ready := true }],
           focus := some ⟨⟨0, 0⟩⟩ }, []) :=
  (dead_focus_safety (fun _ => false)
      { instances := [{ instanceObj := ⟨⟨0, 1⟩⟩, serial := 2, ready := true }],
        focus := some ⟨⟨0, 0⟩⟩ } (fun _ _ => rfl)).1

/-- Claim C6 (amended): `location()` is `(x - w, y + h)` of the current
cursor rectangle computed in wrapping `i32` arithmetic, which equals the
exact integer values whenever they fit in `i32` — in particular
rectangle `(10, 20, 5, 8)` yields `(5, 28)`; `set_rectangle` stores the
rectangle and dispatches exactly one `text_input_rectangle` send with
the same four values, and after `set_rectangle 0 0 0 0` the location is
`(0, 0)`. -/
theorem popup_placement (p : PopupSurface) (x y w h : Int)
    (role : ZwpInputPopupSurfaceV2) (surf par : WlSurface) (ploc : Rectangle32) :
    p.location = (wrap32 (p.rectangle.loc.x - p.rectangle.size.w),
                  wrap32 (p.rectangle.loc.y + p.rectangle.size.h))
    ∧ (-2147483648 ≤ p.rectangle.loc.x - p.rectangle.size.w →
        p.rectangle.loc.x - p.rectangle.size.w < 2147483648 →
        p.location.1 = p.rectangle.loc.x - p.rectangle.size.w)
    ∧ (-2147483648 ≤ p.rectangle.loc.y + p.rectangle.size.h →
        p.rectangle.loc.y + p.rectangle.size.h < 2147483648 →
        p.location.2 = p.rectangle.loc.y + p.rectangle.size.h)
    ∧ (PopupSurface.mk role surf par
        (Rectangle32.from_loc_and_size 10 20 5 8) ploc).location = (5, 28)
    ∧ p.set_rectangle x y w h
        = ({ p with rectangle := Rectangle32.from_loc_and_size x y w h },
           [PopupEvent.textInputRectangle p.surface_role.id x y w h])
    ∧ ((p.set_rectangle x y w h).2).length = 1
    ∧ ((p.set_rectangle 0 0 0 0).1).location = (0, 0) := by
  refine ⟨rfl, ?_, ?_, ?_, rfl, rfl, ?_⟩
  · intro h1 h2
    exact wrap32_eq_self _ h1 h2
  · intro h1 h2
    exact wrap32_eq_self _ h1 h2
  · show (wrap32 (10 - 5), wrap32 (20 + 8)) = ((5 : Int), (28 : Int))
    decide
  · show (wrap32 ((0 : Int) - 0), wrap32 ((0 : Int) + 0)) = ((0 : Int), (0 : Int))
    decide

/-- Witness for the amended C6 theorem: rectangle `(10, 20, 5, 8)` is in
range, so the first location coordinate is exactly `10 - 5`. -/
theorem popup_placement_witness :
    (PopupSurface.mk ⟨⟨2, 1⟩⟩ ⟨⟨2, 2⟩⟩ ⟨⟨2, 3⟩⟩
        (Rectangle32.from_loc_and_size 10 20 5 8)
        (Rectangle32.from_loc_and_size 0 0 0 0)).location.1
      = (PopupSurface.mk ⟨⟨2, 1⟩⟩ ⟨⟨2, 2⟩⟩ ⟨⟨2, 3⟩⟩
        (Rectangle32.from_loc_and_size 10 20 5 8)
        (Rectangle32.from_loc_and_size 0 0 0 0)).rectangle.loc.x
        - (PopupSurface.mk ⟨⟨2, 1⟩⟩ ⟨⟨2, 2⟩⟩ ⟨⟨2, 3⟩⟩
        (Rectangle32.from_loc_and_size 10 20 5 8)
        (Rectangle32.from_loc_and_size 0 0 0 0)).rectangle.size.w :=
  (popup_placement (PopupSurface.mk ⟨⟨2, 1⟩⟩ ⟨⟨2, 2⟩⟩ ⟨⟨2, 3⟩⟩
      (Rectangle32.from_loc_and_size 10 20 5 8)
      (Rectangle32.from_loc_and_size 0 0 0 0)) 0 0 0 0 ⟨⟨2, 1⟩⟩ ⟨⟨2, 2⟩⟩ ⟨⟨2, 3⟩⟩
      (Rectangle32.from_loc_and_size 0 0 0 0)).2.1 (by decide) (by decide)

/-- Counterexample to C6 as stated: a client can store rectangle
`(x = -2^31, y = 0, w = 2^31 - 1, h = 0)` via `set_rectangle`, and then
`location().1` is 1 (wrapping `i32` subtraction), not the exact value
`x - w = -(2^32 - 1)`. -/
theorem popup_location_wrap_counterexample :
    ((PopupSurface.mk ⟨⟨0, 3⟩⟩ ⟨⟨0, 4⟩⟩ ⟨⟨0, 5⟩⟩
        (Rectangle32.from_loc_and_size 0 0 0 0)
        (Rectangle32.from_loc_and_size 0 0 0 0)).set_rectangle
          (-2147483648) 0 2147483647 0).1.location.1 = 1
    ∧ (-2147483648 : Int) - 2147483647 = -4294967295
    ∧ (1 : Int) ≠ -4294967295 := by decide

/-- Claim C7: a popup handle is alive iff its backing surface is alive
and its role alive tracker is alive; killing either one alone makes it
not alive; the destruction callback of the role object sets the tracker
dead, and doing so is idempotent (the write-once cell never comes
back). -/
theorem popup_liveness (p : PopupSurface) (surfaceAlive : ObjId → Bool)
    (trackerAlive : Bool) :
    (p.alive surfaceAlive trackerAlive = true
      ↔ (surfaceAlive p.surface.id = true ∧ trackerAlive = true))
    ∧ p.alive surfaceAlive false = false
    ∧ (surfaceAlive p.surface.id = false →
        p.alive surfaceAlive trackerAlive = false)
    ∧ popupSurfaceDestroyed trackerAlive = false
    ∧ destroy_notify (destroy_notify trackerAlive) = destroy_notify trackerAlive := by
  refine ⟨?_, ?_, ?_, rfl, rfl⟩
  · simp [PopupSurface.alive]
  · simp [PopupSurface.alive]
  · intro hd
    simp [PopupSurface.alive, hd]

/-- Witness for the C7 theorem: a dead surface makes the handle not
alive even though the tracker is alive. -/
theorem popup_liveness_witness :
    PopupSurface.alive (PopupSurface.mk ⟨⟨3, 1⟩⟩ ⟨⟨3, 2⟩⟩ ⟨⟨3, 3⟩⟩
        (Rectangle32.from_loc_and_size 0 0 0 0)
        (Rectangle32.from_loc_and_size 0 0 0 0))
      (fun _ => false) true = false :=
  (popup_liveness (PopupSurface.mk ⟨⟨3, 1⟩⟩ ⟨⟨3, 2⟩⟩ ⟨⟨3, 3⟩⟩
      (Rectangle32.from_loc_and_size 0 0 0 0)
      (Rectangle32.from_loc_and_size 0 0 0 0)) (fun _ => false) true).2.2.1 rfl

/-- Claim C8: a `SetTextChangeCause` request aborts iff its cause is not
a recognized enumerant, a `SetContentType` request aborts iff its hint
or its purpose is not recognized, and for recognized values the handler
forwards exactly those values to the relay. -/
theorem invalid_enumerant_aborts (r : ZwpTextInputV3) (s : TextInput)
    (cause hint purpose : Nat) :
    (handleRequest r (Request.SetTextChangeCause cause) s = none
      ↔ changeCauseIntoResult cause = none)
    ∧ (changeCauseIntoResult cause = some cause →
        handleRequest r (Request.SetTextChangeCause cause) s
          = some (s, [RelayCall.textChangeCause cause]))
    ∧ (handleRequest r (Request.SetContentType hint purpose) s = none
      ↔ (contentHintIntoResult hint = none ∨ contentPurposeIntoResult purpose = none))
    ∧ (contentHintIntoResult hint = some hint →
        contentPurposeIntoResult purpose = some purpose →
        handleRequest r (Request.SetContentType hint purpose) s
          = some (s, [RelayCall.contentType hint purpose])) := by
  refine ⟨?_, ?_, ?_, ?_⟩
  · simp only [handleRequest]
    cases hc : changeCauseIntoResult cause <;> simp
  · intro hc
    simp [handleRequest, hc]
  · simp only [handleRequest]
    cases hh : contentHintIntoResult hint <;>
      cases hp : contentPurposeIntoResult purpose <;> simp
  · intro hh hp
    simp [handleRequest, hh, hp]

/-- Witness for the C8 theorem: cause 7 and hint 2048 abort, cause 1 and
content type `(1, 13)` are forwarded unchanged. -/
theorem invalid_enumerant_aborts_witness :
    handleRequest ⟨⟨0, 0⟩⟩ (Request.SetTextChangeCause 7)
        { instances := [], focus := none } = none
    ∧ handleRequest ⟨⟨0, 0⟩⟩ (Request.SetTextChangeCause 1)
        { instances := [], focus := none }
        = some ({ instances := [], focus := none }, [RelayCall.textChangeCause 1])
    ∧ handleRequest ⟨⟨0, 0⟩⟩ (Request.SetContentType 2048 3)
        { instances := [], focus := none } = none
    ∧ handleRequest ⟨⟨0, 0⟩⟩ (Request.SetContentType 1 13)
        { instances := [], focus := none }
        = some ({ instances := [], focus := none }, [RelayCall.contentType 1 13]) :=
  ⟨(invalid_enumerant_aborts ⟨⟨0, 0⟩⟩ { instances := [], focus := none } 7 0 0).1.mpr
      (by decide),
   (invalid_enumerant_aborts ⟨⟨0, 0⟩⟩ { instances := [], focus := none } 1 0 0).2.1
      (by decide),
   (invalid_enumerant_aborts ⟨⟨0, 0⟩⟩ { instances := [], focus := none } 0 2048 3).2.2.1.mpr
      (Or.inl (by decide)),
   (invalid_enumerant_aborts ⟨⟨0, 0⟩⟩ { instances := [], focus := none } 0 1 13).2.2.2
      (by decide) (by decide)⟩

/-- Claim C9: a `Commit` request is handled as `increment_serial`
followed by one relay `done` call; the registry effect bumps the serial
and sets `ready` on every entry whose handle is the committing object,
and neither depends on nor changes the focus. -/
theorem commit_ignores_focus (r : ZwpTextInputV3) (s : TextInput)
    (foc1 foc2 : Option WlSurface) (l : List Instance) :
    handleRequest r Request.Commit s
        = some (TextInputHandle.increment_serial r s, [RelayCall.done])
    ∧ (TextInputHandle.increment_serial r s).focus = s.focus
    ∧ (TextInputHandle.increment_serial r { instances := l, focus := foc1 }).instances
        = (TextInputHandle.increment_serial r { instances := l, focus := foc2 }).instances
    ∧ ((TextInputHandle.increment_serial r s).instances
        = s.instances.map fun ti =>
            if ti.instanceObj = r then
              { ti with ready := true, serial := (ti.serial + 1) % U32_MOD }
            else ti)
    ∧ (∀ ti ∈ s.instances, ti.instanceObj = r →
        ({ instanceObj := ti.instanceObj, serial := (ti.serial + 1) % U32_MOD,
           ready := true } : Instance)
          ∈ (TextInputHandle.increment_serial r s).instances) := by
  refine ⟨rfl, rfl, rfl, rfl, ?_⟩
  intro ti hti he
  simp only [TextInputHandle.increment_serial]
  refine List.mem_map.2 ⟨ti, hti, ?_⟩
  rw [if_pos he]

/-- Witness for the C9 theorem: committing on a one-instance registry
with no focus bumps that instance to serial 1, ready. -/
theorem commit_ignores_focus_witness :
    ({ instanceObj := ⟨⟨0, 1⟩⟩, serial := (0 + 1) % U32_MOD, ready := true } : Instance)
      ∈ (TextInputHandle.increment_serial ⟨⟨0, 1⟩⟩
          { instances := [{ instanceObj := ⟨⟨0, 1⟩⟩, serial := 0, ready := false }],
            focus := none }).instances :=
  (commit_ignores_focus ⟨⟨0, 1⟩⟩
      { instances := [{ instanceObj := ⟨⟨0, 1⟩⟩, serial := 0, ready := false }],
        focus := none } none none []).2.2.2.2
    { instanceObj := ⟨⟨0, 1⟩⟩, serial := 0, ready := false } (by decide) rfl

/-- Claim C10: `done()` never changes the focus, an instance handle or a
serial, keeps the instance list membership and length, and only flips
`ready` from true to false on ready focused-client instances (given an
alive focus); every other entry is unchanged. -/
theorem done_frame (aliveOf : ObjId → Bool) (s : TextInput) :
    (TextInputHandle.done aliveOf s).1.focus = s.focus
    ∧ ((TextInputHandle.done aliveOf s).1.instances
        = s.instances.map fun ti =>
            match s.focus with
            | none => ti
            | some surf =>
                if aliveOf surf.id && ti.instanceObj.id.same_client_as surf.id
                    && ti.ready then
                  { ti with ready := false }
                else ti)
    ∧ serialsOf (TextInputHandle.done aliveOf s).1 = serialsOf s
    ∧ (TextInputHandle.done aliveOf s).1.instances.map Instance.instanceObj
        = s.instances.map Instance.instanceObj
    ∧ (TextInputHandle.done aliveOf s).1.instances.length = s.instances.length := by
  refine ⟨done_fst_focus aliveOf s, ?_, serialsOf_done aliveOf s, ?_, ?_⟩
  · rw [done_state_char]
  · rw [done_state_char]
    simp only [List.map_map]
    apply List.map_congr_left
    intro ti _
    cases s.focus with
    | none => rfl
    | some surf =>
        dsimp only [Function.comp]
        split <;> rfl
  · rw [done_state_char]
    simp
